import Mathlib

/-!
# Verification of the ClaudeArcade pseudo-terminal session manager

A shallow embedding of the multiplexed pty session manager of
`src-tauri/src/pty.rs` (the `PtyManager` with its `spawn`, `write`,
`resize` and `kill` operations, the per-session output-relay thread and
exit-watcher thread), and of the settings-store update operations of
`src-tauri/src/scanner/settings.rs` (`update_enabled_plugins`,
`write_permissions`).

The session collection (`Arc<Mutex<HashMap<String, PtyInstance>>>`) is
modelled as an association list from session id to instance state; the
outcomes of the OS-level I/O calls (`write_all`, `flush`, `resize`,
`openpty`, `spawn_command`, `try_clone_reader`, `take_writer`) are supplied
by explicit oracle records, so each operation is a pure function of the
collection state and the oracle.  Mutex acquisition is modelled with an
explicit `lockOk` flag: Rust's `Mutex::lock` fails only when the mutex was
poisoned by a panic in another holder, a path the code maps to a
`Lock error: ...` string.
-/

set_option autoImplicit false

namespace ClaudeArcade

/-! ## Association-list maps

`HashMap<String, V>` and `serde_json::Map<String, Value>` are modelled as
association lists observed through `List.lookup`.  `setKey` is
insert-or-replace (the semantics of `HashMap::insert` / `Map::insert`);
`eraseKey` is `HashMap::remove`. -/

/-- Insert-or-replace a binding, as `HashMap::insert` / `Map::insert` do:
replace the value of an existing key in place, append the binding
otherwise. -/
def setKey {β : Type} (k : String) (v : β) :
    List (String × β) → List (String × β)
  | [] => [(k, v)]
  | p :: t => if p.1 = k then (k, v) :: t else p :: setKey k v t

/-- Remove a binding, as `HashMap::remove` does. -/
def eraseKey {β : Type} (k : String) (l : List (String × β)) :
    List (String × β) :=
  l.filter (fun p => p.1 != k)

theorem lookup_cons_self {β : Type} (k : String) (v : β)
    (t : List (String × β)) : List.lookup k ((k, v) :: t) = some v := by
  simp [List.lookup]

theorem lookup_cons_of_ne {β : Type} (k : String) (p : String × β)
    (t : List (String × β)) (h : k ≠ p.1) :
    List.lookup k (p :: t) = List.lookup k t := by
  simp only [List.lookup]
  rw [show (k == p.1) = false from beq_eq_false_iff_ne.mpr h]

theorem lookup_setKey_self {β : Type} (k : String) (v : β)
    (l : List (String × β)) : List.lookup k (setKey k v l) = some v := by
  induction l with
  | nil => exact lookup_cons_self k v []
  | cons p t ih =>
    by_cases h : p.1 = k
    · rw [setKey, if_pos h]
      exact lookup_cons_self k v t
    · rw [setKey, if_neg h, lookup_cons_of_ne k p _ (fun hk => h hk.symm)]
      exact ih

theorem lookup_setKey_ne {β : Type} (k k' : String) (v : β)
    (l : List (String × β)) (hne : k' ≠ k) :
    List.lookup k' (setKey k v l) = List.lookup k' l := by
  induction l with
  | nil => simp [setKey, lookup_cons_of_ne k' (k, v) [] hne]
  | cons p t ih =>
    by_cases h : p.1 = k
    · rw [setKey, if_pos h,
        lookup_cons_of_ne k' (k, v) t hne,
        lookup_cons_of_ne k' p t (h ▸ hne)]
    · by_cases h' : k' = p.1
      · subst h'
        rw [setKey, if_neg h]
        cases p with
        | mk a b => rw [lookup_cons_self, lookup_cons_self]
      · rw [setKey, if_neg h, lookup_cons_of_ne k' p _ h',
          lookup_cons_of_ne k' p t h']
        exact ih

theorem lookup_eraseKey_self {β : Type} (k : String)
    (l : List (String × β)) : List.lookup k (eraseKey k l) = none := by
  induction l with
  | nil => simp [eraseKey]
  | cons p t ih =>
    by_cases h : p.1 = k
    · rw [eraseKey, List.filter_cons,
        if_neg (by simp [bne_iff_ne, h])]
      exact ih
    · rw [eraseKey, List.filter_cons,
        if_pos (by simp [bne_iff_ne, h]),
        lookup_cons_of_ne k p _ (fun hk => h hk.symm)]
      exact ih

theorem lookup_eraseKey_ne {β : Type} (k k' : String)
    (l : List (String × β)) (hne : k' ≠ k) :
    List.lookup k' (eraseKey k l) = List.lookup k' l := by
  induction l with
  | nil => simp [eraseKey]
  | cons p t ih =>
    by_cases h : p.1 = k
    · rw [eraseKey, List.filter_cons, if_neg (by simp [bne_iff_ne, h]),
        lookup_cons_of_ne k' p t (h ▸ hne)]
      exact ih
    · by_cases h' : k' = p.1
      · subst h'
        rw [eraseKey, List.filter_cons, if_pos (by simp [bne_iff_ne, h])]
        cases p with
        | mk a b => rw [lookup_cons_self, lookup_cons_self]
      · rw [eraseKey, List.filter_cons, if_pos (by simp [bne_iff_ne, h]),
          lookup_cons_of_ne k' p _ h', lookup_cons_of_ne k' p t h']
        exact ih

theorem eraseKey_of_lookup_none {β : Type} (k : String)
    (l : List (String × β)) (h : List.lookup k l = none) :
    eraseKey k l = l := by
  induction l with
  | nil => simp [eraseKey]
  | cons p t ih =>
    by_cases hp : p.1 = k
    · exfalso
      cases p with
      | mk a b =>
        rw [show a = k from hp] at h
        rw [lookup_cons_self] at h
        exact Option.noConfusion h
    · rw [lookup_cons_of_ne k p t (fun hk => hp hk.symm)] at h
      rw [eraseKey, List.filter_cons, if_pos (by simp [bne_iff_ne, hp])]
      rw [show List.filter (fun q => q.1 != k) t = eraseKey k t from rfl, ih h]

/-! ## The pty session manager (`src-tauri/src/pty.rs`)

Data model.  A `PtyInstance` (pty.rs:9-12) owns the writer handle and the
master handle of one session.  The writer (`Box<dyn Write + Send>`) is
modelled by the bytes it has accepted but not yet flushed (`buffered`) and
the bytes flushed through to the process's standard input (`flushed`);
the master handle is modelled by the terminal size it was last given.
Bytes are `Nat` values (< 256 in any real execution). -/

structure WriterState where
  buffered : List Nat
  flushed : List Nat
deriving DecidableEq, Repr

structure MasterState where
  cols : Nat
  rows : Nat
deriving DecidableEq, Repr

structure PtyInstance where
  writer : WriterState
  master : MasterState
deriving DecidableEq, Repr

/-- The session collection `HashMap<String, PtyInstance>` of
`PtyManager` (pty.rs:14-16), observed through `List.lookup`. -/
abbrev SessionMap := List (String × PtyInstance)

/-- The error string returned for an unknown id (pty.rs:127, 150); the
spec's `SessionNotFound`. -/
def sessionNotFoundMsg : String := "PTY not found"

/-- The error string modelling a failed `Mutex::lock` (pty.rs:122, 145,
168); the spec's `LockError`.  The formatted poison payload is abstracted
to a fixed message. -/
def lockErrorMsg : String := "Lock error: poisoned"

namespace PtyManager

/-- Oracle for the I/O outcomes inside `PtyManager::write` (pty.rs:129-137):
whether `write_all` fails (and, if so, how many leading bytes the writer
accepted before failing) and whether `flush` fails. -/
structure WriteOracle where
  writeAllErr : Option String
  acceptedLen : Nat
  flushErr : Option String

/-- `PtyManager::kill` (pty.rs:165-173): lock the collection, remove the
id, return `Ok(())`.  Returns the result together with the collection
after the call. -/
def kill (lockOk : Bool) (m : SessionMap) (id : String) :
    Except String Unit × SessionMap :=
  if lockOk then (.ok (), eraseKey id m) else (.error lockErrorMsg, m)

/-- `PtyManager::write` (pty.rs:119-140): lock the collection, look up the
id (`PTY not found` when absent), `write_all` the bytes, then `flush`;
each I/O error is formatted and returned.  Returns the result together
with the collection after the call. -/
def write (lockOk : Bool) (o : WriteOracle) (m : SessionMap) (id : String)
    (data : List Nat) : Except String Unit × SessionMap :=
  if lockOk then
    match List.lookup id m with
    | none => (.error sessionNotFoundMsg, m)
    | some inst =>
      match o.writeAllErr with
      | some e =>
        (.error ("Write error: " ++ e),
          setKey id
            { inst with writer :=
                { inst.writer with
                    buffered := inst.writer.buffered ++ data.take o.acceptedLen } }
            m)
      | none =>
        match o.flushErr with
        | some e =>
          (.error ("Flush error: " ++ e),
            setKey id
              { inst with writer :=
                  { inst.writer with
                      buffered := inst.writer.buffered ++ data } }
              m)
        | none =>
          (.ok (),
            setKey id
              { inst with writer :=
                  { buffered := [],
                    flushed := inst.writer.flushed ++ inst.writer.buffered ++ data } }
              m)
  else (.error lockErrorMsg, m)

/-- `PtyManager::resize` (pty.rs:142-163): lock the collection, look up the
id (`PTY not found` when absent), call `master.resize` with the new
`PtySize`.  The oracle supplies the outcome of the OS resize call. -/
def resize (lockOk : Bool) (resizeErr : Option String) (m : SessionMap)
    (id : String) (cols rows : Nat) : Except String Unit × SessionMap :=
  if lockOk then
    match List.lookup id m with
    | none => (.error sessionNotFoundMsg, m)
    | some inst =>
      match resizeErr with
      | some e => (.error ("Resize error: " ++ e), m)
      | none =>
        (.ok (), setKey id { inst with master := { cols := cols, rows := rows } } m)
  else (.error lockErrorMsg, m)

/-- Oracle for the fallible steps of `PtyManager::spawn` (pty.rs:25-117),
in source order: `openpty` (l.34), `spawn_command` (l.54),
`try_clone_reader` (l.63), `take_writer` (l.101), and the collection lock
(l.111). -/
structure SpawnOracle where
  openPtyErr : Option String
  spawnErr : Option String
  cloneReaderErr : Option String
  takeWriterErr : Option String
  lockOk : Bool

/-- Observable outcome of one `PtyManager::spawn` call: the returned
`Result`, the session collection afterwards, and whether the child shell
process, the output-relay thread (pty.rs:70) and the exit-watcher thread
(pty.rs:90) were started by the time the call returned. -/
structure SpawnOutcome where
  result : Except String String
  sessions : SessionMap
  childSpawned : Bool
  relayStarted : Bool
  watcherStarted : Bool

/-- `PtyManager::spawn` (pty.rs:25-117) in source order: open the pty pair,
spawn the default shell on the slave side (`cwd` and the
`TERM`/`COLORTERM` environment configure the child only and are not
observable in this model), generate a fresh id (`newId`), clone the
reader, start the output-relay and exit-watcher threads, take the writer,
then lock the collection and insert the new instance.  Any failure
returns the formatted error immediately via `?`. -/
def spawn (o : SpawnOracle) (m : SessionMap) (newId : String)
    (cols rows : Nat) : SpawnOutcome :=
  match o.openPtyErr with
  | some e =>
    { result := .error ("Failed to open PTY: " ++ e), sessions := m,
      childSpawned := false, relayStarted := false, watcherStarted := false }
  | none =>
  match o.spawnErr with
  | some e =>
    { result := .error ("Failed to spawn shell: " ++ e), sessions := m,
      childSpawned := false, relayStarted := false, watcherStarted := false }
  | none =>
  match o.cloneReaderErr with
  | some e =>
    { result := .error ("Failed to clone reader: " ++ e), sessions := m,
      childSpawned := true, relayStarted := false, watcherStarted := false }
  | none =>
  match o.takeWriterErr with
  | some e =>
    { result := .error ("Failed to take writer: " ++ e), sessions := m,
      childSpawned := true, relayStarted := true, watcherStarted := true }
  | none =>
  if o.lockOk then
    { result := .ok newId,
      sessions := setKey newId
        { writer := { buffered := [], flushed := [] },
          master := { cols := cols, rows := rows } } m,
      childSpawned := true, relayStarted := true, watcherStarted := true }
  else
    { result := .error lockErrorMsg, sessions := m,
      childSpawned := true, relayStarted := true, watcherStarted := true }

end PtyManager

/-! ## `String::from_utf8_lossy`

The output-relay thread forwards each chunk through
`String::from_utf8_lossy(&buf[..n]).to_string()` (pty.rs:76).  We model
the lossy decoding as a byte-list to byte-list function: valid UTF-8
scalar sequences pass through unchanged, and each maximal invalid subpart
is replaced by one U+FFFD replacement character (its UTF-8 encoding
`EF BF BD`), following the substitution-of-maximal-subparts rule used by
Rust's `Utf8Chunks`. -/

/-- Is `b` a UTF-8 continuation byte (`0x80..=0xBF`)? -/
def isCont (b : Nat) : Bool := 0x80 ≤ b && b ≤ 0xBF

/-- UTF-8 encoding of U+FFFD, the replacement character. -/
def replacementChar : List Nat := [0xEF, 0xBF, 0xBD]

/-- Classify the scalar sequence starting at byte `b` with following bytes
`rest`: return how many bytes of `rest` belong to the (maximal) sequence
and whether the sequence is a complete, valid scalar.  The continuation
ranges (`E0: A0..BF`, `ED: 80..9F`, `F0: 90..BF`, `F4: 80..8F`) are those
of Rust's `run_utf8_validation`. -/
def utf8Step (b : Nat) (rest : List Nat) : Nat × Bool :=
  if b ≤ 0x7F then (0, true)
  else if 0xC2 ≤ b && b ≤ 0xDF then
    match rest with
    | c1 :: _ => if isCont c1 then (1, true) else (0, false)
    | [] => (0, false)
  else if 0xE0 ≤ b && b ≤ 0xEF then
    let lo := if b = 0xE0 then 0xA0 else 0x80
    let hi := if b = 0xED then 0x9F else 0xBF
    match rest with
    | c1 :: c2 :: _ =>
      if lo ≤ c1 && c1 ≤ hi then
        if isCont c2 then (2, true) else (1, false)
      else (0, false)
    | [c1] => if lo ≤ c1 && c1 ≤ hi then (1, false) else (0, false)
    | [] => (0, false)
  else if 0xF0 ≤ b && b ≤ 0xF4 then
    let lo := if b = 0xF0 then 0x90 else 0x80
    let hi := if b = 0xF4 then 0x8F else 0xBF
    match rest with
    | c1 :: c2 :: c3 :: _ =>
      if lo ≤ c1 && c1 ≤ hi then
        if isCont c2 then
          if isCont c3 then (3, true) else (2, false)
        else (1, false)
      else (0, false)
    | [c1, c2] =>
      if lo ≤ c1 && c1 ≤ hi then
        if isCont c2 then (2, false) else (1, false)
      else (0, false)
    | [c1] => if lo ≤ c1 && c1 ≤ hi then (1, false) else (0, false)
    | [] => (0, false)
  else (0, false)

/-- Fuel-indexed worker for `utf8Lossy`; one unit of fuel per leading byte
consumed, so `l.length` fuel always suffices. -/
def utf8LossyGo : Nat → List Nat → List Nat
  | 0, _ => []
  | _ + 1, [] => []
  | fuel + 1, b :: rest =>
    let s := utf8Step b rest
    (if s.2 then b :: rest.take s.1 else replacementChar) ++
      utf8LossyGo fuel (rest.drop s.1)

/-- `String::from_utf8_lossy` on a byte list, as the UTF-8 bytes of the
resulting string. -/
def utf8Lossy (l : List Nat) : List Nat := utf8LossyGo l.length l

/-- Fuel-indexed worker for `isValidUtf8`. -/
def isValidUtf8Go : Nat → List Nat → Bool
  | 0, l => l.isEmpty
  | _ + 1, [] => true
  | fuel + 1, b :: rest =>
    let s := utf8Step b rest
    s.2 && isValidUtf8Go fuel (rest.drop s.1)

/-- Is `l` a valid UTF-8 byte sequence? -/
def isValidUtf8 (l : List Nat) : Bool := isValidUtf8Go l.length l

theorem utf8LossyGo_of_valid (fuel : Nat) :
    ∀ l : List Nat, l.length ≤ fuel → isValidUtf8Go fuel l = true →
      utf8LossyGo fuel l = l := by
  induction fuel with
  | zero =>
    intro l hlen _
    cases l with
    | nil => rfl
    | cons b rest => exact absurd hlen (by simp)
  | succ fuel ih =>
    intro l hlen hvalid
    cases l with
    | nil => rfl
    | cons b rest =>
      rw [utf8LossyGo]
      rw [isValidUtf8Go] at hvalid
      have hok : (utf8Step b rest).2 = true := by
        by_contra hne
        rw [Bool.eq_false_iff.mpr hne] at hvalid
        simp at hvalid
      rw [hok] at hvalid
      simp only [Bool.true_and] at hvalid
      rw [if_pos hok]
      have hrec : utf8LossyGo fuel (rest.drop (utf8Step b rest).1) =
          rest.drop (utf8Step b rest).1 := by
        apply ih _ _ hvalid
        calc (rest.drop (utf8Step b rest).1).length ≤ rest.length :=
              by simp [List.length_drop]
          _ ≤ fuel := by
              have : rest.length + 1 ≤ fuel + 1 := by simpa using hlen
              omega
      rw [hrec, List.cons_append, List.take_append_drop]

/-- On valid UTF-8 input the lossy decoding is the identity. -/
theorem utf8Lossy_of_valid (l : List Nat) (h : isValidUtf8 l = true) :
    utf8Lossy l = l :=
  utf8LossyGo_of_valid l.length l (Nat.le_refl _) h

/-! ## Output relay and exit watcher (pty.rs:68-98)

The relay thread reads into a fixed `[0u8; 4096]` buffer in a loop
(pty.rs:71-84): `Ok(0)` breaks (EOF), `Ok(n)` emits one `pty-output`
event whose payload is the lossy decoding of exactly the `n` bytes read,
`Err(_)` breaks.  The environment is modelled as the finite sequence of
outcomes the successive `read` calls return. -/

/-- The size of the relay's read buffer (pty.rs:71). -/
def relayBufSize : Nat := 4096

/-- Outcome of one `reader.read(&mut buf)` call: a chunk of bytes
(`Ok(n)`, the empty chunk being `Ok(0)`/EOF) or a read error. -/
inductive ReadResult where
  | chunk (b : List Nat)
  | readErr
deriving DecidableEq, Repr

/-- A chunk fits the relay's fixed 4 KiB buffer. -/
def ReadResult.fitsBuf : ReadResult → Bool
  | .chunk b => decide (b.length ≤ relayBufSize)
  | .readErr => true

/-- Does this read outcome keep the relay loop going with an emission? -/
def ReadResult.isData : ReadResult → Bool
  | .chunk b => !b.isEmpty
  | .readErr => false

/-- The bytes of a chunk (empty for an error outcome). -/
def ReadResult.bytes : ReadResult → List Nat
  | .chunk b => b
  | .readErr => []

/-- One `pty-output` event (pty.rs:77-80): the session id and the payload
text (as UTF-8 bytes). -/
structure OutputEvent where
  id : String
  data : List Nat
deriving DecidableEq, Repr

/-- The relay loop (pty.rs:72-84): emit one event per successful nonzero
read, in order; break on `Ok(0)` (EOF) and on `Err(_)`. -/
def outputRelay (id : String) : List ReadResult → List OutputEvent
  | [] => []
  | .chunk [] :: _ => []
  | .chunk (b :: bs) :: rest =>
    { id := id, data := utf8Lossy (b :: bs) } :: outputRelay id rest
  | .readErr :: _ => []

/-- Concatenation of byte chunks. -/
def concatBytes (l : List (List Nat)) : List Nat :=
  l.foldr (fun a b => a ++ b) []

/-- The read outcomes of a session whose process produces exactly the
given nonempty chunks and then closes the stream (EOF). -/
def relayReads (chunks : List (List Nat)) : List ReadResult :=
  chunks.map ReadResult.chunk ++ [ReadResult.chunk []]

/-- One `pty-exit` event (pty.rs:93-96): the session id and the process's
exit code. -/
structure ExitEvent where
  id : String
  code : Nat
deriving DecidableEq, Repr

/-- The exit-watcher thread body (pty.rs:90-98): one blocking
`child.wait()`; on `Ok(status)` emit a single `pty-exit` event carrying
`status.exit_code()`, on `Err` emit nothing.  `waitResult` is the outcome
of the wait. -/
def exitWatcher (id : String) (waitResult : Option Nat) : List ExitEvent :=
  match waitResult with
  | some code => [{ id := id, code := code }]
  | none => []

/-! ## Lock-scope traces

The order of atomic steps each manager operation performs on its success
path, read off the source.  A `MutexGuard` obtained by `.lock()` lives to
the end of the function body, so `lockRelease` is the final step of every
operation that takes the lock.  `blocksOnProcess` marks the steps that
are blocking I/O against the session's process/pty. -/

inductive Step where
  | lockAcquire
  | lockRelease
  | mapLookup
  | mapInsert
  | mapRemove
  | ioWriteAll
  | ioFlush
  | ioResize
  | ioOpenPty
  | ioSpawnChild
  | ioCloneReader
  | ioTakeWriter
  | genId
  | startOutputRelay
  | startExitWatcher
deriving DecidableEq, BEq, Repr

/-- Steps that are blocking I/O calls to the session's process or pty
endpoints. -/
def Step.blocksOnProcess : Step → Bool
  | .ioWriteAll | .ioFlush | .ioResize | .ioOpenPty | .ioSpawnChild
  | .ioTakeWriter | .ioCloneReader => true
  | _ => false

/-- Steps of `PtyManager::write` (pty.rs:119-140): the guard is acquired
at l.122 and dropped at the end of the function, after `write_all`
(l.131) and `flush` (l.136). -/
def writeTrace : List Step :=
  [.lockAcquire, .mapLookup, .ioWriteAll, .ioFlush, .lockRelease]

/-- Steps of `PtyManager::resize` (pty.rs:142-163): the guard is acquired
at l.145 and dropped after `master.resize` (l.154). -/
def resizeTrace : List Step :=
  [.lockAcquire, .mapLookup, .ioResize, .lockRelease]

/-- Steps of `PtyManager::kill` (pty.rs:165-173): the guard is held only
around `instances.remove(id)`. -/
def killTrace : List Step :=
  [.lockAcquire, .mapRemove, .lockRelease]

/-- Steps of `PtyManager::spawn` (pty.rs:25-117) on its success path:
all pty/process I/O and both thread starts happen before the collection
lock is taken at l.111-114 for the insert. -/
def spawnTrace : List Step :=
  [.ioOpenPty, .ioSpawnChild, .genId, .ioCloneReader, .startOutputRelay,
   .startExitWatcher, .ioTakeWriter, .lockAcquire, .mapInsert, .lockRelease]

/-- Does the trace perform blocking process I/O while the collection lock
is held? -/
def ioUnderLockGo : Bool → List Step → Bool
  | _, [] => false
  | _, .lockAcquire :: rest => ioUnderLockGo true rest
  | _, .lockRelease :: rest => ioUnderLockGo false rest
  | inLock, s :: rest => (inLock && s.blocksOnProcess) || ioUnderLockGo inLock rest

/-- A blocking process-I/O step occurs between `lockAcquire` and
`lockRelease` in the trace. -/
def ioUnderLock (t : List Step) : Bool := ioUnderLockGo false t

/-! ## The settings store (`src-tauri/src/scanner/settings.rs`)

`settings.json` is modelled as a parsed JSON document; the filesystem as
an association list from path to the parsed content of existing files.
`read_settings_raw` (settings.rs:29-34) yields the parsed file or an
empty object.  Both `update_enabled_plugins` (settings.rs:37-64) and
`write_permissions` (settings.rs:179-204) read the raw document, replace
one top-level field (when the document is an object), serialize the whole
document to `settings.json.tmp`, and rename the temp file over
`settings.json`.  (`create_dir_all` on the parent directory and
serialization to text are not observable in this model; files carry their
parsed JSON.) -/

inductive Json where
  | null : Json
  | bool : Bool → Json
  | num : Int → Json
  | str : String → Json
  | arr : List Json → Json
  | obj : List (String × Json) → Json

/-- Path of `settings.json` under the home directory (settings.rs:16-18);
the home-directory prefix is abstracted away. -/
def settingsPath : String := ".claude/settings.json"

/-- `path.with_extension("json.tmp")` applied to `settings.json`
(settings.rs:56, 198). -/
def settingsTmpPath : String := ".claude/settings.json.tmp"

/-- The filesystem fragment relevant to the settings store: existing
files with their parsed JSON content. -/
abbrev Fs := List (String × Json)

/-- `read_settings_raw` (settings.rs:29-34): the parsed settings file, or
an empty JSON object when the file is missing. -/
def readSettingsRaw (fs : Fs) : Json :=
  (List.lookup settingsPath fs).getD (.obj [])

/-- The `if let Value::Object(ref mut map) = settings` update
(settings.rs:49-53, 191-195): replace the named top-level field when the
document is an object, leave any non-object document unchanged. -/
def updateField (doc : Json) (k : String) (v : Json) : Json :=
  match doc with
  | .obj fields => .obj (setKey k v fields)
  | other => other

/-- A filesystem operation performed while persisting settings. -/
inductive FsOp where
  | write (path : String) (content : Json)
  | rename (src dst : String)

/-- Apply one filesystem operation.  `rename` moves the source file over
the destination (the success path of `fs::rename`). -/
def applyFsOp (fs : Fs) : FsOp → Fs
  | .write p c => setKey p c fs
  | .rename src dst =>
    match List.lookup src fs with
    | none => fs
    | some c => setKey dst c (eraseKey src fs)

/-- `serde_json::to_value` of the `HashMap<String, bool>` of enabled
plugins (settings.rs:50). -/
def pluginsJson (plugins : List (String × Bool)) : Json :=
  .obj (plugins.map (fun p => (p.1, .bool p.2)))

/-- The `PermissionsConfig` struct (settings.rs:158-166). -/
structure PermissionsConfig where
  allow : List String
  ask : List String
  deny : List String

/-- `serde_json::to_value` of a `PermissionsConfig` (settings.rs:192). -/
def permissionsJson (p : PermissionsConfig) : Json :=
  .obj [("allow", .arr (p.allow.map .str)),
        ("ask", .arr (p.ask.map .str)),
        ("deny", .arr (p.deny.map .str))]

/-- The write-to-temp-then-rename persistence sequence shared by
`update_enabled_plugins` (settings.rs:55-61) and `write_permissions`
(settings.rs:197-201): write the whole updated document to
`settings.json.tmp`, then rename it over `settings.json`. -/
def persistOps (doc : Json) : List FsOp :=
  [.write settingsTmpPath doc, .rename settingsTmpPath settingsPath]

/-- The read-update-persist shape shared verbatim by
`update_enabled_plugins` (settings.rs:45-63) and `write_permissions`
(settings.rs:187-203): read the raw document, replace the named
top-level field, write the whole document to the temp file, rename it
over `settings.json`.  Returns the filesystem after the call. -/
def writeSettingsField (fs : Fs) (k : String) (v : Json) : Fs :=
  (persistOps (updateField (readSettingsRaw fs) k v)).foldl applyFsOp fs

/-- `update_enabled_plugins` (settings.rs:37-64) on the success path. -/
def update_enabled_plugins (fs : Fs) (plugins : List (String × Bool)) : Fs :=
  writeSettingsField fs "enabledPlugins" (pluginsJson plugins)

/-- `write_permissions` (settings.rs:179-204) on the success path. -/
def write_permissions (fs : Fs) (p : PermissionsConfig) : Fs :=
  writeSettingsField fs "permissions" (permissionsJson p)

/-- A fresh session instance as registered by `spawn`, and a one-session
demo collection; used by the concrete witnesses below. -/
def demoInstance : PtyInstance :=
  { writer := { buffered := [], flushed := [] },
    master := { cols := 80, rows := 24 } }

def demoMap : SessionMap := [("a", demoInstance)]

/-- A demo settings filesystem whose `settings.json` is an object with
one unrelated field. -/
def demoFs : Fs := [(settingsPath, Json.obj [("theme", Json.str "dark")])]

theorem settingsTmpPath_ne_settingsPath : settingsTmpPath ≠ settingsPath := by
  decide

/-- Effect of the shared read-update-persist sequence when the settings
file holds a JSON object: the named field is replaced in the full
document, the temp file does not survive, and every other path is
untouched. -/
theorem writeSettingsField_spec (fs : Fs) (fields : List (String × Json))
    (k : String) (v : Json)
    (h : List.lookup settingsPath fs = some (.obj fields)) :
    List.lookup settingsPath (writeSettingsField fs k v) =
      some (.obj (setKey k v fields)) ∧
    List.lookup settingsTmpPath (writeSettingsField fs k v) = none ∧
    (∀ p, p ≠ settingsPath → p ≠ settingsTmpPath →
      List.lookup p (writeSettingsField fs k v) = List.lookup p fs) ∧
    writeSettingsField fs k v =
      (persistOps (.obj (setKey k v fields))).foldl applyFsOp fs := by
  have hdoc : readSettingsRaw fs = .obj fields := by
    rw [readSettingsRaw, h]
    rfl
  have hshape : writeSettingsField fs k v =
      applyFsOp (applyFsOp fs (.write settingsTmpPath (.obj (setKey k v fields))))
        (.rename settingsTmpPath settingsPath) := by
    rw [writeSettingsField, hdoc]
    rfl
  have hren : applyFsOp (applyFsOp fs (.write settingsTmpPath (.obj (setKey k v fields))))
      (.rename settingsTmpPath settingsPath) =
      setKey settingsPath (.obj (setKey k v fields))
        (eraseKey settingsTmpPath (setKey settingsTmpPath (.obj (setKey k v fields)) fs)) := by
    show (match List.lookup settingsTmpPath
        (setKey settingsTmpPath (Json.obj (setKey k v fields)) fs) with
      | none => setKey settingsTmpPath (Json.obj (setKey k v fields)) fs
      | some c => setKey settingsPath c
          (eraseKey settingsTmpPath
            (setKey settingsTmpPath (Json.obj (setKey k v fields)) fs))) = _
    rw [lookup_setKey_self]
  refine ⟨?_, ?_, ?_, ?_⟩
  · rw [hshape, hren, lookup_setKey_self]
  · rw [hshape, hren,
      lookup_setKey_ne settingsPath settingsTmpPath _ _ settingsTmpPath_ne_settingsPath,
      lookup_eraseKey_self]
  · intro p hp1 hp2
    rw [hshape, hren, lookup_setKey_ne settingsPath p _ _ hp1,
      lookup_eraseKey_ne settingsTmpPath p _ hp2,
      lookup_setKey_ne settingsTmpPath p _ _ hp2]
  · rw [hshape]
    rfl

/-! ## Claim theorems -/

/-- C1: for every session collection and every id, `kill(id)` returns ok;
it removes the id's session when present, leaves the collection unchanged
when the id is absent, and a second `kill` on the same id also returns
ok (idempotence). -/
theorem kill_ok_removes_and_idempotent (m : SessionMap) (id : String) :
    (PtyManager.kill true m id).1 = .ok () ∧
    List.lookup id (PtyManager.kill true m id).2 = none ∧
    (∀ k, k ≠ id →
      List.lookup k (PtyManager.kill true m id).2 = List.lookup k m) ∧
    (List.lookup id m = none → (PtyManager.kill true m id).2 = m) ∧
    (PtyManager.kill true (PtyManager.kill true m id).2 id).1 = .ok () := by
  refine ⟨rfl, ?_, ?_, ?_, rfl⟩
  · exact lookup_eraseKey_self id m
  · intro k hk
    exact lookup_eraseKey_ne id k m hk
  · intro h
    show eraseKey id m = m
    exact eraseKey_of_lookup_none id m h

theorem kill_ok_removes_and_idempotent_witness :
    (PtyManager.kill true demoMap "a").1 = .ok () ∧
    List.lookup "a" (PtyManager.kill true demoMap "a").2 = none ∧
    (PtyManager.kill true ([] : SessionMap) "b").2 = ([] : SessionMap) :=
  ⟨(kill_ok_removes_and_idempotent demoMap "a").1,
   (kill_ok_removes_and_idempotent demoMap "a").2.1,
   (kill_ok_removes_and_idempotent [] "b").2.2.2.1 rfl⟩

/-- C2: for every id absent from the collection, `write` and `resize`
both fail with `SessionNotFound` (the `PTY not found` error) and leave
the collection unchanged, whatever the I/O oracles would have done. -/
theorem write_resize_unknown_id (m : SessionMap) (id : String)
    (o : PtyManager.WriteOracle) (rErr : Option String) (data : List Nat)
    (cols rows : Nat) (h : List.lookup id m = none) :
    PtyManager.write true o m id data = (.error sessionNotFoundMsg, m) ∧
    PtyManager.resize true rErr m id cols rows =
      (.error sessionNotFoundMsg, m) := by
  constructor
  · rw [PtyManager.write, if_pos rfl, h]
  · rw [PtyManager.resize, if_pos rfl, h]

theorem write_resize_unknown_id_witness :
    PtyManager.write true ⟨none, 0, none⟩ demoMap "b" [104] =
      (.error sessionNotFoundMsg, demoMap) ∧
    PtyManager.resize true none demoMap "b" 100 40 =
      (.error sessionNotFoundMsg, demoMap) :=
  write_resize_unknown_id demoMap "b" ⟨none, 0, none⟩ none [104] 100 40
    (by decide)

/-- C3: for every id present in the collection and every byte sequence,
`write` either returns an error, or returns ok having appended exactly
those bytes, verbatim and in order, to the flushed stream of that
session's writer (full buffer written and flushed, nothing left
buffered) while touching no other session — never ok after a partial
write. -/
theorem write_verbatim_flushed_or_error (m : SessionMap)
    (o : PtyManager.WriteOracle) (id : String) (data : List Nat)
    (inst : PtyInstance) (h : List.lookup id m = some inst) :
    (∃ e, (PtyManager.write true o m id data).1 = .error e) ∨
    ((PtyManager.write true o m id data).1 = .ok () ∧
      List.lookup id (PtyManager.write true o m id data).2 =
        some (PtyInstance.mk
          (WriterState.mk []
            (inst.writer.flushed ++ inst.writer.buffered ++ data))
          inst.master) ∧
      ∀ k, k ≠ id →
        List.lookup k (PtyManager.write true o m id data).2 =
          List.lookup k m) := by
  cases hw : o.writeAllErr with
  | some e =>
    left
    exact ⟨"Write error: " ++ e, by rw [PtyManager.write, if_pos rfl, h, hw]⟩
  | none =>
    cases hf : o.flushErr with
    | some e =>
      left
      exact ⟨"Flush error: " ++ e, by rw [PtyManager.write, if_pos rfl, h, hw, hf]⟩
    | none =>
      right
      refine ⟨by rw [PtyManager.write, if_pos rfl, h, hw, hf], ?_, ?_⟩
      · rw [PtyManager.write, if_pos rfl, h, hw, hf]
        exact lookup_setKey_self id _ m
      · intro k hk
        rw [PtyManager.write, if_pos rfl, h, hw, hf]
        exact lookup_setKey_ne id k _ m hk

theorem write_verbatim_flushed_or_error_witness :
    (∃ e, (PtyManager.write true ⟨none, 0, none⟩ demoMap "a" [104, 105]).1 =
      .error e) ∨
    ((PtyManager.write true ⟨none, 0, none⟩ demoMap "a" [104, 105]).1 = .ok () ∧
      List.lookup "a" (PtyManager.write true ⟨none, 0, none⟩ demoMap "a"
          [104, 105]).2 =
        some (PtyInstance.mk
          (WriterState.mk []
            (demoInstance.writer.flushed ++ demoInstance.writer.buffered ++
              [104, 105]))
          demoInstance.master) ∧
      ∀ k, k ≠ "a" →
        List.lookup k (PtyManager.write true ⟨none, 0, none⟩ demoMap "a"
            [104, 105]).2 = List.lookup k demoMap) :=
  write_verbatim_flushed_or_error demoMap ⟨none, 0, none⟩ "a" [104, 105]
    demoInstance (by decide)

/-- C4: whenever `spawn` fails — pty allocation, shell start, reader
clone, writer acquisition or the collection lock — it returns an error
and registers nothing: the session collection after the call is exactly
the collection before it. -/
theorem spawn_error_registers_nothing (o : PtyManager.SpawnOracle)
    (m : SessionMap) (newId : String) (cols rows : Nat) (e : String)
    (h : (PtyManager.spawn o m newId cols rows).result = .error e) :
    (PtyManager.spawn o m newId cols rows).sessions = m := by
  cases ho : o.openPtyErr with
  | some e' => rw [PtyManager.spawn, ho]
  | none =>
  cases hs : o.spawnErr with
  | some e' => rw [PtyManager.spawn, ho, hs]
  | none =>
  cases hc : o.cloneReaderErr with
  | some e' => rw [PtyManager.spawn, ho, hs, hc]
  | none =>
  cases ht : o.takeWriterErr with
  | some e' => rw [PtyManager.spawn, ho, hs, hc, ht]
  | none =>
  cases hl : o.lockOk with
  | false => rw [PtyManager.spawn, ho, hs, hc, ht, hl, if_neg (by simp)]
  | true =>
    exfalso
    rw [PtyManager.spawn, ho, hs, hc, ht, hl, if_pos rfl] at h
    exact Except.noConfusion h

theorem spawn_error_registers_nothing_witness :
    (PtyManager.spawn ⟨some "boom", none, none, none, true⟩ demoMap "id0"
      80 24).sessions = demoMap :=
  spawn_error_registers_nothing ⟨some "boom", none, none, none, true⟩
    demoMap "id0" 80 24 ("Failed to open PTY: " ++ "boom") rfl

/-- C5: for every sequence of read outcomes fitting the fixed 4 KiB
buffer, the relay emits exactly one output event per successful nonzero
read — tagged with the session id and carrying exactly those bytes,
forwarded as text (their lossy UTF-8 decoding) — in read order, and
terminates at the first zero-length read (EOF) or read error, emitting
nothing further (no retry). -/
theorem relay_one_event_per_read (id : String) (reads : List ReadResult)
    (hfit : ∀ r ∈ reads, r.fitsBuf = true) :
    outputRelay id reads =
      (reads.takeWhile ReadResult.isData).map
        (fun r => { id := id, data := utf8Lossy r.bytes }) := by
  induction reads with
  | nil => rfl
  | cons r rest ih =>
    have ihrest := ih (fun r' hr' => hfit r' (List.mem_cons_of_mem r hr'))
    cases r with
    | chunk b =>
      cases b with
      | nil => simp [outputRelay, List.takeWhile_cons, ReadResult.isData]
      | cons x xs =>
        simp [outputRelay, List.takeWhile_cons, ReadResult.isData,
          ReadResult.bytes, ihrest]
    | readErr => simp [outputRelay, List.takeWhile_cons, ReadResult.isData]

theorem relay_one_event_per_read_witness :
    outputRelay "s" [ReadResult.chunk [104], ReadResult.readErr,
        ReadResult.chunk [105]] =
      ([ReadResult.chunk [104], ReadResult.readErr,
          ReadResult.chunk [105]].takeWhile ReadResult.isData).map
        (fun r => { id := "s", data := utf8Lossy r.bytes }) :=
  relay_one_event_per_read "s"
    [ReadResult.chunk [104], ReadResult.readErr, ReadResult.chunk [105]]
    (by decide)

/-- C6: the exit watcher emits at most one exit event ever: exactly one
event carrying the process's exit code when the single blocking wait
succeeds, and nothing at all when the wait fails. -/
theorem exit_watcher_emits_at_most_once (id : String) (w : Option Nat) :
    (exitWatcher id w).length ≤ 1 ∧
    (∀ c, w = some c → exitWatcher id w = [{ id := id, code := c }]) ∧
    (w = none → exitWatcher id w = []) := by
  refine ⟨?_, ?_, ?_⟩
  · cases w <;> simp [exitWatcher]
  · intro c hc
    rw [hc]
    rfl
  · intro hn
    rw [hn]
    rfl

theorem exit_watcher_emits_at_most_once_witness :
    exitWatcher "s" (some 3) = [{ id := "s", code := 3 }] ∧
    exitWatcher "s" none = [] :=
  ⟨(exit_watcher_emits_at_most_once "s" (some 3)).2.1 3 rfl,
   (exit_watcher_emits_at_most_once "s" none).2.2 rfl⟩

/-- C7 counterexample: a session whose process produces the single byte
`0xFF` and then closes the stream.  The relay's one output event carries
the lossy decoding (the replacement character `EF BF BD`), so the
concatenation of the emitted payloads is not equal to the byte sequence
the process produced. -/
theorem relay_concat_not_byte_exact :
    ¬ concatBytes ((outputRelay "s" (relayReads [[0xFF]])).map
        OutputEvent.data) = concatBytes [[0xFF]] := by
  decide

/-- C7 amended: for every session and every sequence of nonempty chunks
read before EOF, the relay emits its output events in exactly the read
order (FIFO, one event per chunk), and the concatenation of the emitted
payloads equals the concatenation of the per-chunk lossy UTF-8
decodings of the process's bytes — which is the process's byte sequence
itself whenever every chunk is valid UTF-8, but not in general. -/
theorem relay_fifo_and_lossy_concat (id : String)
    (chunks : List (List Nat)) (hne : ∀ b ∈ chunks, b ≠ []) :
    (outputRelay id (relayReads chunks)).map OutputEvent.data =
      chunks.map utf8Lossy ∧
    concatBytes ((outputRelay id (relayReads chunks)).map OutputEvent.data) =
      concatBytes (chunks.map utf8Lossy) ∧
    ((∀ b ∈ chunks, isValidUtf8 b = true) →
      concatBytes ((outputRelay id (relayReads chunks)).map
        OutputEvent.data) = concatBytes chunks) := by
  have hmap : (outputRelay id (relayReads chunks)).map OutputEvent.data =
      chunks.map utf8Lossy := by
    induction chunks with
    | nil => rfl
    | cons b rest ih =>
      have hb : b ≠ [] := hne b (List.mem_cons_self b rest)
      cases b with
      | nil => exact absurd rfl hb
      | cons x xs =>
        have ihrest := ih (fun b' hb' => hne b' (List.mem_cons_of_mem _ hb'))
        simp only [relayReads, List.map_cons, List.cons_append,
          outputRelay, List.map, List.append_eq] at ihrest ⊢
        rw [ihrest]
  refine ⟨hmap, by rw [hmap], ?_⟩
  intro hvalid
  rw [hmap]
  have : chunks.map utf8Lossy = chunks.map (fun b => b) :=
    List.map_congr_left (fun b hb => utf8Lossy_of_valid b (hvalid b hb))
  rw [this, List.map_id']

theorem relay_fifo_and_lossy_concat_witness :
    (outputRelay "s" (relayReads [[104, 105], [33]])).map OutputEvent.data =
      [[104, 105], [33]].map utf8Lossy ∧
    concatBytes ((outputRelay "s" (relayReads [[104, 105], [33]])).map
      OutputEvent.data) = concatBytes [[104, 105], [33]] :=
  ⟨(relay_fifo_and_lossy_concat "s" [[104, 105], [33]] (by decide)).1,
   (relay_fifo_and_lossy_concat "s" [[104, 105], [33]] (by decide)).2.2
     (by decide)⟩

/-- C8 counterexample: `PtyManager::write` holds the session-collection
lock across its blocking `write_all`/`flush` I/O (the guard acquired at
pty.rs:122 lives to the end of the function), and `resize` likewise
holds it across the OS resize call — refuting the claim that
write/resize/kill never hold the lock across blocking process I/O. -/
theorem write_resize_hold_lock_across_io :
    ¬ (ioUnderLock writeTrace = false ∧ ioUnderLock resizeTrace = false) := by
  decide

/-- C8 amended: `kill` holds the collection lock only for the removal,
and `spawn` performs all its pty allocation, process start and writer
acquisition before taking the lock; but `write` and `resize` hold the
lock across their blocking I/O calls to the session's process, so a
slow write or resize against one session does block operations against
other sessions. -/
theorem lock_discipline_per_operation :
    ioUnderLock writeTrace = true ∧ ioUnderLock resizeTrace = true ∧
    ioUnderLock killTrace = false ∧ ioUnderLock spawnTrace = false := by
  decide

/-- C9: when `settings.json` holds a JSON object, `update_enabled_plugins`
and `write_permissions` each replace exactly their named top-level field
(`enabledPlugins` resp. `permissions`) in the full document — every
other field keeps its value — and persist by writing the whole document
to the temp file and renaming it over the original: afterwards the
settings path holds the updated document, the temp file is gone, and no
other path changed. -/
theorem settings_update_replaces_single_field (fs : Fs)
    (fields : List (String × Json)) (plugins : List (String × Bool))
    (perms : PermissionsConfig)
    (h : List.lookup settingsPath fs = some (.obj fields)) :
    (List.lookup settingsPath (update_enabled_plugins fs plugins) =
        some (.obj (setKey "enabledPlugins" (pluginsJson plugins) fields)) ∧
      (∀ k, k ≠ "enabledPlugins" →
        List.lookup k (setKey "enabledPlugins" (pluginsJson plugins) fields) =
          List.lookup k fields) ∧
      List.lookup settingsTmpPath (update_enabled_plugins fs plugins) = none ∧
      (∀ p, p ≠ settingsPath → p ≠ settingsTmpPath →
        List.lookup p (update_enabled_plugins fs plugins) =
          List.lookup p fs) ∧
      update_enabled_plugins fs plugins =
        (persistOps (.obj (setKey "enabledPlugins" (pluginsJson plugins)
          fields))).foldl applyFsOp fs) ∧
    (List.lookup settingsPath (write_permissions fs perms) =
        some (.obj (setKey "permissions" (permissionsJson perms) fields)) ∧
      (∀ k, k ≠ "permissions" →
        List.lookup k (setKey "permissions" (permissionsJson perms) fields) =
          List.lookup k fields) ∧
      List.lookup settingsTmpPath (write_permissions fs perms) = none ∧
      (∀ p, p ≠ settingsPath → p ≠ settingsTmpPath →
        List.lookup p (write_permissions fs perms) = List.lookup p fs) ∧
      write_permissions fs perms =
        (persistOps (.obj (setKey "permissions" (permissionsJson perms)
          fields))).foldl applyFsOp fs) := by
  have h1 := writeSettingsField_spec fs fields "enabledPlugins"
    (pluginsJson plugins) h
  have h2 := writeSettingsField_spec fs fields "permissions"
    (permissionsJson perms) h
  refine ⟨⟨h1.1, ?_, h1.2.1, h1.2.2.1, h1.2.2.2⟩,
          ⟨h2.1, ?_, h2.2.1, h2.2.2.1, h2.2.2.2⟩⟩
  · intro k hk
    exact lookup_setKey_ne "enabledPlugins" k (pluginsJson plugins) fields hk
  · intro k hk
    exact lookup_setKey_ne "permissions" k (permissionsJson perms) fields hk

theorem settings_update_replaces_single_field_witness :
    List.lookup settingsPath
        (update_enabled_plugins demoFs [("p", true)]) =
      some (.obj (setKey "enabledPlugins" (pluginsJson [("p", true)])
        [("theme", Json.str "dark")])) ∧
    List.lookup settingsTmpPath
      (update_enabled_plugins demoFs [("p", true)]) = none ∧
    List.lookup settingsPath
        (write_permissions demoFs ⟨["Bash"], [], []⟩) =
      some (.obj (setKey "permissions" (permissionsJson ⟨["Bash"], [], []⟩)
        [("theme", Json.str "dark")])) :=
  ⟨(settings_update_replaces_single_field demoFs [("theme", Json.str "dark")]
      [("p", true)] ⟨["Bash"], [], []⟩ rfl).1.1,
   (settings_update_replaces_single_field demoFs [("theme", Json.str "dark")]
      [("p", true)] ⟨["Bash"], [], []⟩ rfl).1.2.2.1,
   (settings_update_replaces_single_field demoFs [("theme", Json.str "dark")]
      [("p", true)] ⟨["Bash"], [], []⟩ rfl).2.1⟩

/-- C10: on a spawn where the pty opens, the shell starts and the reader
clones, but taking the writer or the collection lock then fails, `spawn`
returns an error while the child process and both worker threads have
already been started and no session was registered; and in the success
trace both worker-thread starts precede the insertion into the
collection, so events for the new id can be emitted before `spawn`
returns it. -/
theorem spawn_workers_started_before_registration
    (o : PtyManager.SpawnOracle) (m : SessionMap) (newId : String)
    (cols rows : Nat) (h1 : o.openPtyErr = none) (h2 : o.spawnErr = none)
    (h3 : o.cloneReaderErr = none)
    (h4 : o.takeWriterErr ≠ none ∨ o.lockOk = false) :
    (∃ e, (PtyManager.spawn o m newId cols rows).result = .error e) ∧
    (PtyManager.spawn o m newId cols rows).childSpawned = true ∧
    (PtyManager.spawn o m newId cols rows).relayStarted = true ∧
    (PtyManager.spawn o m newId cols rows).watcherStarted = true ∧
    (PtyManager.spawn o m newId cols rows).sessions = m ∧
    spawnTrace.indexOf Step.startOutputRelay <
      spawnTrace.indexOf Step.mapInsert ∧
    spawnTrace.indexOf Step.startExitWatcher <
      spawnTrace.indexOf Step.mapInsert := by
  cases ht : o.takeWriterErr with
  | some e =>
    refine ⟨⟨"Failed to take writer: " ++ e, ?_⟩, ?_, ?_, ?_, ?_,
        by decide, by decide⟩ <;>
      rw [PtyManager.spawn, h1, h2, h3, ht]
  | none =>
    have hl : o.lockOk = false := by
      rcases h4 with h4 | h4
      · exact absurd ht h4
      · exact h4
    refine ⟨⟨lockErrorMsg, ?_⟩, ?_, ?_, ?_, ?_, by decide, by decide⟩ <;>
      rw [PtyManager.spawn, h1, h2, h3, ht, hl, if_neg (by simp)]

theorem spawn_workers_started_before_registration_witness :
    (∃ e, (PtyManager.spawn ⟨none, none, none, some "gone", true⟩ demoMap
      "id1" 80 24).result = .error e) ∧
    (PtyManager.spawn ⟨none, none, none, some "gone", true⟩ demoMap
      "id1" 80 24).childSpawned = true ∧
    (PtyManager.spawn ⟨none, none, none, some "gone", true⟩ demoMap
      "id1" 80 24).relayStarted = true ∧
    (PtyManager.spawn ⟨none, none, none, some "gone", true⟩ demoMap
      "id1" 80 24).watcherStarted = true ∧
    (PtyManager.spawn ⟨none, none, none, some "gone", true⟩ demoMap
      "id1" 80 24).sessions = demoMap ∧
    spawnTrace.indexOf Step.startOutputRelay <
      spawnTrace.indexOf Step.mapInsert ∧
    spawnTrace.indexOf Step.startExitWatcher <
      spawnTrace.indexOf Step.mapInsert :=
  spawn_workers_started_before_registration
    ⟨none, none, none, some "gone", true⟩ demoMap "id1" 80 24 rfl rfl rfl
    (Or.inl (by simp))

end ClaudeArcade
